import Mathlib

/-!
Shallow embedding of the `useStateMachine` finite-state-machine engine
(the `getReducer` / `reducer` function, the `initialState` construction and
the `useEffect`-based effect scheduler of `useStateMachineWithContext`).

JavaScript objects used as string-keyed maps (`config.states`, a state's
`on` map) are embedded as association lists with insertion order, so that
`Object.keys` is the list of first components.  A property access that can
hit `undefined` is embedded as an `Option`-valued lookup; a member access
on `undefined` (a TypeError at run time) is embedded as the value `none` of
an `Option`-valued function.
-/

namespace UseStateMachine

/-- `Transition`: either a bare target state name (shorthand string) or
`{ target, guard? }` where `guard : (state: string, event: string) => boolean`. -/
inductive Transition : Type where
  | str (target : String)
  | obj (target : String) (guard : Option (String → String → Bool))

/-- The shape of a state's entry effect, `effect?: (assign) => void | ((assign) => void)`:
the effect is an opaque host callback, of which the engine only observes whether
its return value is a function (`typeof exit === 'function'`), i.e. whether it
yields an exit/cleanup callback.  Invocations are observed as `EffLabel`s below. -/
inductive Effect : Type where
  | retVoid
  | retCleanup

/-- A state's configuration: `{ on?: { [event]: Transition }, effect? }`.
The source field `on` is named `onMap` here (`on` is a reserved token in Lean). -/
structure MachineStateConfig : Type where
  onMap : Option (List (String × Transition))
  effect : Option Effect

/-- `{ initial: string, states: { [name]: MachineStateConfig } }`. -/
structure MachineConfig : Type where
  initial : String
  states : List (String × MachineStateConfig)

/-- The machine snapshot `{ value, context, nextEvents }`, parametric in the
context type `C` (the source's `Context extends Record<PropertyKey, any>`). -/
structure MachineState (C : Type) : Type where
  value : String
  context : C
  nextEvents : List String
deriving DecidableEq

/-- The reducer's message union: a plain event name, or the internal
context-update message `{ type: __contextKey, updater }`.  The private-symbol
tag is embedded as a separate constructor, which is exactly its role: callers
dispatch `event` messages, the engine alone builds `contextUpdate` ones. -/
inductive Msg (C : Type) : Type where
  | event (name : String)
  | contextUpdate (updater : C → C)

/-- JS object property lookup on a string-keyed association list:
`o[k]`, `undefined` (`none`) when the key is absent. -/
def alookup {α : Type} (k : String) : List (String × α) → Option α
  | [] => none
  | p :: rest => if p.1 = k then some p.2 else alookup k rest

/-- `Object.keys (on ?? [])`: the key list of an optional `on` map
(empty when the map is absent). -/
def keysOf (m : Option (List (String × Transition))) : List String :=
  (m.getD []).map Prod.fst

/-- `config.states[v]?.on?.[e]` — the transition configured for event `e`
in state `v`, `undefined` (`none`) when the state, its `on` map or the
event key is absent (all accesses are optional-chained in the source). -/
def transitionLookup (config : MachineConfig) (v e : String) : Option Transition :=
  ((alookup v config.states).bind MachineStateConfig.onMap).bind (fun m => alookup e m)

/-- `typeof nextState === 'string' ? nextState : nextState.target`. -/
def targetOf : Transition → String
  | .str t => t
  | .obj t _ => t

/-- JS truthiness test `!nextState` applied to a looked-up transition:
a string is falsy exactly when it is `""`; an object is never falsy. -/
def transitionFalsy : Transition → Bool
  | .str t => t == ""
  | .obj _ _ => false

/-- `typeof nextState === 'object' && nextState.guard && !nextState.guard(state.value, event)`. -/
def guardDenies : Transition → String → String → Bool
  | .str _, _, _ => false
  | .obj _ none, _, _ => false
  | .obj _ (some g), v, e => ! g v e

/-- The reducer returned by `getReducer(config)`.  The result is `none` when
the source would throw a TypeError: the final branch reads
`config.states[nextStateValue].on` through an unguarded lookup, so a target
name absent from `config.states` crashes there.  The context-update branch is
tested first in the source (`typeof event === 'object' && event.type === __contextKey`);
the preceding `currentState`/`nextState` lookups are pure and optional-chained,
so hoisting the branch preserves behavior. -/
def reducer {C : Type} (config : MachineConfig) (state : MachineState C)
    (event : Msg C) : Option (MachineState C) :=
  match event with
  | .contextUpdate u => some { state with context := u state.context }
  | .event e =>
    match transitionLookup config state.value e with
    | none => some state
    | some tr =>
      if transitionFalsy tr then some state
      else if guardDenies tr state.value e then some state
      else
        match alookup (targetOf tr) config.states with
        | none => none
        | some sd => some { state with value := targetOf tr, nextEvents := keysOf sd.onMap }

/-- The initial snapshot built in `useStateMachineWithContext`:
`{ value: config.initial, context: context ?? ({} as Context), nextEvents: Object.keys(config.states[config.initial].on ?? []) }`.
The lookup `config.states[config.initial]` is unguarded, so an `initial` that
is not a key of `states` throws at construction (`none` here).  The optional
hook argument `context` is `Option C` (`none` = argument omitted), and the
polymorphically cast literal `{} as Context` is passed as `emptyContext`,
the representation of the empty record in `C`. -/
def initialState {C : Type} (config : MachineConfig) (emptyContext : C)
    (context : Option C) : Option (MachineState C) :=
  match alookup config.initial config.states with
  | none => none
  | some sd =>
    some { value := config.initial
           context := context.getD emptyContext
           nextEvents := keysOf sd.onMap }

/-- One successful reducer step between snapshots. -/
def Step {C : Type} (config : MachineConfig) (s s' : MachineState C) : Prop :=
  ∃ msg, reducer config s msg = some s'

/-- Reachable snapshots: the initial snapshot and everything the reducer
produces from a reachable one. -/
def Reachable {C : Type} (config : MachineConfig) (emptyContext : C)
    (context : Option C) (s : MachineState C) : Prop :=
  ∃ s0, initialState config emptyContext context = some s0 ∧
    Relation.ReflTransGen (Step config) s0 s

/-- Every transition configured anywhere in the machine targets a key of
`config.states`. -/
def WellTargeted (config : MachineConfig) : Prop :=
  ∀ p ∈ config.states, ∀ q ∈ p.2.onMap.getD [],
    targetOf q.2 ∈ config.states.map Prod.fst

instance (config : MachineConfig) : Decidable (WellTargeted config) := by
  unfold WellTargeted
  infer_instance

/-- `n` successive dispatches of the same event name, stopping on a crash. -/
def dispatchN {C : Type} (config : MachineConfig) (e : String) :
    Nat → MachineState C → Option (MachineState C)
  | 0, s => some s
  | n + 1, s => (reducer config s (.event e)).bind (dispatchN config e n)

/-! ### Effect scheduler

The host wiring is
`useEffect(() => { const exit = config.states[machine.value]?.effect?.(update);
return typeof exit === 'function' ? exit.bind(null, update) : void 0; }, [machine.value])`:
React runs the callback once on mount and, on every snapshot replacement whose
`machine.value` differs from the previous render's, first runs the cleanup
returned by the previous run, then the callback again.  Invocations are
observed as labels; the pending cleanup is tracked by the state value whose
entry effect returned it. -/

/-- Observable effect invocations: the entry effect of state `v`, or the
exit callback returned by state `v`'s entry effect. -/
inductive EffLabel : Type where
  | entry (v : String)
  | exit (v : String)
deriving DecidableEq

/-- The runtime's conceptual state: the current snapshot plus the pending
exit callback, identified by the state whose entry effect returned it. -/
structure Runtime (C : Type) : Type where
  machine : MachineState C
  cleanupOwner : Option String

/-- `config.states[v]?.effect` — the entry effect configured for state `v`. -/
def effectOf (config : MachineConfig) (v : String) : Option Effect :=
  (alookup v config.states).bind MachineStateConfig.effect

/-- One run of the `useEffect` callback for state value `v`: invoke the
entry effect if configured, and record the new pending cleanup when it
returns a function. -/
def runEffect (config : MachineConfig) (v : String) :
    Option String × List EffLabel :=
  match effectOf config v with
  | none => (none, [])
  | some .retVoid => (none, [.entry v])
  | some .retCleanup => (some v, [.entry v])

/-- The exit invocations performed before a re-run of the effect callback:
the pending cleanup, if any. -/
def exitLabels : Option String → List EffLabel
  | some v => [.exit v]
  | none => []

/-- The entry invocations performed by one run of the effect callback. -/
def entryLabels (config : MachineConfig) (v : String) : List EffLabel :=
  match effectOf config v with
  | none => []
  | some _ => [.entry v]

/-- Runtime initialization: build the initial snapshot, then React mounts the
effect and runs the initial state's entry effect once. -/
def initRuntime {C : Type} (config : MachineConfig) (emptyContext : C)
    (context : Option C) : Option (Runtime C × List EffLabel) :=
  (initialState config emptyContext context).map fun m0 =>
    let r := runEffect config m0.value
    (⟨m0, r.1⟩, r.2)

/-- One dispatch through the runtime: the reducer replaces the snapshot and,
because the effect's dependency array is `[machine.value]`, the effect phase
runs the pending exit callback and the new entry effect exactly when the
value changed, and nothing otherwise. -/
def stepRuntime {C : Type} (config : MachineConfig) (rt : Runtime C)
    (msg : Msg C) : Option (Runtime C × List EffLabel) :=
  (reducer config rt.machine msg).map fun m' =>
    if m'.value = rt.machine.value then (⟨m', rt.cleanupOwner⟩, [])
    else
      let r := runEffect config m'.value
      (⟨m', r.1⟩, exitLabels rt.cleanupOwner ++ r.2)

/-- A concrete context type for witnesses: a JS record embedded as an
association list of fields; `[]` is the empty record `{}`. -/
def CtxRec : Type := List (String × Int)

instance : DecidableEq CtxRec := by
  unfold CtxRec
  infer_instance

/-! ### Concrete machines for witnesses and counterexamples -/

/-- The spec's toggle machine:
`{initial: 'inactive', states: {inactive: {on:{TOGGLE:'active'}}, active: {on:{TOGGLE:'inactive'}}}}`. -/
def twConfig : MachineConfig :=
  ⟨"inactive",
   [("inactive", ⟨some [("TOGGLE", .str "active")], none⟩),
    ("active", ⟨some [("TOGGLE", .str "inactive")], none⟩)]⟩

/-- The toggle machine's initial snapshot (empty context). -/
def twInactive : MachineState CtxRec := ⟨"inactive", [], ["TOGGLE"]⟩

/-- A machine whose `GO` transition is the bare empty-string shorthand, and
where `""` is itself a configured state. -/
def ceConfig : MachineConfig :=
  ⟨"a", [("a", ⟨some [("GO", .str "")], none⟩), ("", ⟨some [], none⟩)]⟩

/-- The `ceConfig` machine's initial snapshot. -/
def ceState : MachineState CtxRec := ⟨"a", [], ["GO"]⟩

/-- A machine whose `GO` transition carries an always-false guard toward an
existing target state. -/
def gdConfig : MachineConfig :=
  ⟨"a",
   [("a", ⟨some [("GO", .obj "b" (some (fun _ _ => false)))], none⟩),
    ("b", ⟨some [], none⟩)]⟩

/-- The `gdConfig` machine's initial snapshot. -/
def gdState : MachineState CtxRec := ⟨"a", [], ["GO"]⟩

/-- A machine whose `GO` transition has an always-false guard and a target
(`"ghost"`) that is not a key of `states`. -/
def mtConfig : MachineConfig :=
  ⟨"a", [("a", ⟨some [("GO", .obj "ghost" (some (fun _ _ => false)))], none⟩)]⟩

/-- `mtConfig` with the guard replaced by an always-true one. -/
def mtConfig2 : MachineConfig :=
  ⟨"a", [("a", ⟨some [("GO", .obj "ghost" (some (fun _ _ => true)))], none⟩)]⟩

/-- The initial snapshot shared by `mtConfig` and `mtConfig2`. -/
def mtState : MachineState CtxRec := ⟨"a", [], ["GO"]⟩

/-- A configuration whose `initial` name is not a key of `states`. -/
def badInitConfig : MachineConfig :=
  ⟨"missing", [("a", ⟨none, none⟩)]⟩

/-! ### Theorems -/

/-- C3: a context-update message makes the reducer return a `MachineState`
with `context = updater(state.context)` and `value`, `nextEvents` unchanged,
and this branch never consults the configuration: two runs with different
configurations produce the same result. -/
theorem reducer_context_update_frame {C : Type} (config config' : MachineConfig)
    (s : MachineState C) (u : C → C) :
    reducer config s (.contextUpdate u) =
      some ⟨s.value, u s.context, s.nextEvents⟩ ∧
    reducer config s (.contextUpdate u) = reducer config' s (.contextUpdate u) :=
  ⟨rfl, rfl⟩

/-- C5: an event with no configured transition in the current state is a
silent no-op (no error), and dispatching it `n + 1` times equals dispatching
it once. -/
theorem reducer_unrecognized_noop {C : Type} (config : MachineConfig)
    (s : MachineState C) (e : String)
    (h : transitionLookup config s.value e = none) :
    reducer config s (.event e) = some s ∧
    ∀ n : Nat, dispatchN config e (n + 1) s = dispatchN config e 1 s := by
  have hstep : reducer config s (.event e) = some s := by
    simp [reducer, h]
  have hall : ∀ n, dispatchN config e n s = some s := by
    intro n
    induction n with
    | zero => rfl
    | succ k ih => simp [dispatchN, hstep, ih]
  exact ⟨hstep, fun n => by rw [hall, hall]⟩

/-- Witness for C5 on the toggle machine with the unconfigured event `NOPE`,
with the idempotence part instantiated at three dispatches. -/
theorem reducer_unrecognized_noop_witness :
    reducer twConfig twInactive (.event "NOPE") = some twInactive ∧
    dispatchN twConfig "NOPE" 3 twInactive = dispatchN twConfig "NOPE" 1 twInactive :=
  ⟨(reducer_unrecognized_noop twConfig twInactive "NOPE" rfl).1,
   (reducer_unrecognized_noop twConfig twInactive "NOPE" rfl).2 2⟩

/-- C7: when `config.initial` is not a key of `config.states`, building the
initial snapshot fails (the unguarded `config.states[config.initial].on`
lookup throws), rather than producing a snapshot with an invalid value. -/
theorem initialState_missing_initial_fails {C : Type} (config : MachineConfig)
    (emptyContext : C) (context : Option C)
    (h : alookup config.initial config.states = none) :
    initialState config emptyContext context = none := by
  simp [initialState, h]

/-- Witness for C7 on a configuration whose `initial` is absent from `states`. -/
theorem initialState_missing_initial_fails_witness :
    initialState badInitConfig ([] : CtxRec) none = none :=
  initialState_missing_initial_fails badInitConfig [] none rfl

/-- C9: a transition configured as the bare empty-string shorthand is falsy,
so the `!nextState` early return treats it as an unrecognized event: the
reducer returns the state unchanged and never transitions to the state
named `""` via the shorthand form. -/
theorem reducer_empty_shorthand_noop {C : Type} (config : MachineConfig)
    (s : MachineState C) (e : String)
    (h : transitionLookup config s.value e = some (.str "")) :
    reducer config s (.event e) = some s := by
  simp [reducer, h, transitionFalsy]

/-- Witness for C9 on `ceConfig`, where `""` is even a configured state. -/
theorem reducer_empty_shorthand_noop_witness :
    reducer ceConfig ceState (.event "GO") = some ceState :=
  reducer_empty_shorthand_noop ceConfig ceState "GO" rfl

/-- C4: for an object-form transition with a guard, the reducer evaluates the
guard at exactly `(state.value, event)` — not the context — and a false guard
returns the state unchanged (same `value`, `context`, `nextEvents`); in
particular the denial is insensitive to replacing the context. -/
theorem reducer_guard_denied_frame {C : Type} (config : MachineConfig)
    (s : MachineState C) (e t : String) (g : String → String → Bool)
    (hlook : transitionLookup config s.value e = some (.obj t (some g)))
    (hdeny : g s.value e = false) :
    reducer config s (.event e) = some s ∧
    ∀ c' : C, reducer config ⟨s.value, c', s.nextEvents⟩ (.event e) =
      some ⟨s.value, c', s.nextEvents⟩ := by
  have main : ∀ s' : MachineState C, s'.value = s.value →
      reducer config s' (.event e) = some s' := by
    intro s' hv
    simp [reducer, hv, hlook, transitionFalsy, guardDenies, hdeny]
  exact ⟨main s rfl, fun c' => main ⟨s.value, c', s.nextEvents⟩ rfl⟩

/-- Witness for C4 on `gdConfig` (always-false guard), with the
context-insensitivity part instantiated at a one-field record. -/
theorem reducer_guard_denied_frame_witness :
    reducer gdConfig gdState (.event "GO") = some gdState ∧
    reducer gdConfig ⟨"a", [("x", (1 : Int))], ["GO"]⟩ (.event "GO") =
      some ⟨"a", [("x", (1 : Int))], ["GO"]⟩ :=
  ⟨(reducer_guard_denied_frame gdConfig gdState "GO" "b" (fun _ _ => false)
      rfl rfl).1,
   (reducer_guard_denied_frame gdConfig gdState "GO" "b" (fun _ _ => false)
      rfl rfl).2 [("x", (1 : Int))]⟩

/-- C6: guard denial happens strictly before the unguarded target lookup.
For an object-form guarded transition whose target is absent from
`config.states`, the reducer returns the unchanged state when the guard
denies, and only a passing guard reaches the crashing
`config.states[target].on` lookup (`none`). -/
theorem reducer_guard_before_target_lookup {C : Type} (config : MachineConfig)
    (s : MachineState C) (e t : String) (g : String → String → Bool)
    (hlook : transitionLookup config s.value e = some (.obj t (some g)))
    (hmissing : alookup t config.states = none) :
    reducer config s (.event e) = if g s.value e then none else some s := by
  by_cases hg : g s.value e = true
  · simp [reducer, hlook, transitionFalsy, guardDenies, hg, targetOf, hmissing]
  · rw [Bool.not_eq_true] at hg
    simp [reducer, hlook, transitionFalsy, guardDenies, hg]

/-- Witness for C6: with the target `"ghost"` missing from `states`, the
denied transition of `mtConfig` is a clean no-op, while the same transition
with a passing guard (`mtConfig2`) crashes on the target lookup. -/
theorem reducer_guard_before_target_lookup_witness :
    reducer mtConfig mtState (.event "GO") = some mtState ∧
    reducer mtConfig2 mtState (.event "GO") = none :=
  ⟨reducer_guard_before_target_lookup mtConfig mtState "GO" "ghost"
      (fun _ _ => false) rfl rfl,
   reducer_guard_before_target_lookup mtConfig2 mtState "GO" "ghost"
      (fun _ _ => true) rfl rfl⟩

/-- C1 (amended): for a configured transition that is truthy (not the bare
empty-string shorthand), whose guard is absent or passes, and whose target is
a key of `config.states`, the reducer returns the snapshot with
`value = target`, the context unchanged and `nextEvents` the key set of
`config.states[target].on` (empty if that state has no `on` map). -/
theorem reducer_present_transition {C : Type} (config : MachineConfig)
    (s : MachineState C) (e : String) (tr : Transition) (sd : MachineStateConfig)
    (hlook : transitionLookup config s.value e = some tr)
    (htruthy : transitionFalsy tr = false)
    (hguard : guardDenies tr s.value e = false)
    (htarget : alookup (targetOf tr) config.states = some sd) :
    reducer config s (.event e) =
      some ⟨targetOf tr, s.context, keysOf sd.onMap⟩ := by
  simp [reducer, hlook, htruthy, hguard, htarget]

/-- Witness for C1's amended theorem on the toggle machine. -/
theorem reducer_present_transition_witness :
    reducer twConfig twInactive (.event "TOGGLE") =
      some ⟨"active", [], ["TOGGLE"]⟩ :=
  reducer_present_transition twConfig twInactive "TOGGLE" (.str "active")
    ⟨some [("TOGGLE", .str "inactive")], none⟩ rfl rfl rfl rfl

/-- Counterexample to C1 as stated: in `ceConfig` the transition for `GO` is
present (`""`, shorthand, no guard) and its target `""` is a configured state
with an empty `on` map, yet the reducer returns the state unchanged instead
of the claimed `⟨"", context, []⟩`. -/
theorem reducer_present_transition_ce :
    transitionLookup ceConfig ceState.value "GO" = some (.str "") ∧
    alookup (targetOf (.str "")) ceConfig.states =
      some ⟨some [], none⟩ ∧
    reducer ceConfig ceState (.event "GO") = some ceState ∧
    reducer ceConfig ceState (.event "GO") ≠
      some ⟨"", ceState.context, keysOf (some [])⟩ :=
  ⟨rfl, rfl, rfl, by decide⟩

/-- C10: a runtime constructed without an initial context argument
(`context ?? ({} as Context)` with the argument absent) starts from the empty
record, not `null`/`undefined`: instantiated at record contexts, the initial
snapshot's context is `[]`, the empty record. -/
theorem initialState_default_empty_context (config : MachineConfig)
    (sd : MachineStateConfig)
    (h : alookup config.initial config.states = some sd) :
    initialState config ([] : CtxRec) none =
      some ⟨config.initial, [], keysOf sd.onMap⟩ := by
  simp [initialState, h]

/-- Witness for C10 on the toggle machine. -/
theorem initialState_default_empty_context_witness :
    initialState twConfig ([] : CtxRec) none =
      some ⟨"inactive", [], ["TOGGLE"]⟩ :=
  initialState_default_empty_context twConfig
    ⟨some [("TOGGLE", .str "active")], none⟩ rfl

/-- One reducer step preserves the `nextEvents` invariant: any successfully
produced snapshot derives its `nextEvents` from its own value's `on` map. -/
lemma step_preserves_nextEvents {C : Type} (config : MachineConfig)
    (s s' : MachineState C) (h : Step config s s')
    (hs : s.nextEvents =
      keysOf ((alookup s.value config.states).bind MachineStateConfig.onMap)) :
    s'.nextEvents =
      keysOf ((alookup s'.value config.states).bind MachineStateConfig.onMap) := by
  obtain ⟨msg, hred⟩ := h
  cases msg with
  | contextUpdate u =>
    simp only [reducer, Option.some.injEq] at hred
    rw [← hred]
    exact hs
  | event e =>
    simp only [reducer] at hred
    split at hred
    · rw [Option.some.injEq] at hred
      rw [← hred]
      exact hs
    · split at hred
      · rw [Option.some.injEq] at hred
        rw [← hred]
        exact hs
      · split at hred
        · rw [Option.some.injEq] at hred
          rw [← hred]
          exact hs
        · split at hred
          · cases hred
          · rename_i tr _ _ sd heq
            rw [Option.some.injEq] at hred
            rw [← hred]
            simp [heq]

/-- C2: on every reachable snapshot of a machine all of whose transition
targets are configured states, `nextEvents` is exactly the key set of
`config.states[value].on` (empty if the state has no `on` map); it is
recomputed on value changes and untouched by context-only updates, both of
which are reducer steps covered by the reachability closure. -/
theorem nextEvents_invariant {C : Type} (config : MachineConfig)
    (emptyContext : C) (context : Option C) (s : MachineState C)
    (_hwt : WellTargeted config)
    (hreach : Reachable config emptyContext context s) :
    s.nextEvents =
      keysOf ((alookup s.value config.states).bind MachineStateConfig.onMap) := by
  obtain ⟨s0, hinit, hsteps⟩ := hreach
  have h0 : s0.nextEvents =
      keysOf ((alookup s0.value config.states).bind MachineStateConfig.onMap) := by
    unfold initialState at hinit
    split at hinit
    · cases hinit
    · rename_i sd heq
      rw [Option.some.injEq] at hinit
      rw [← hinit]
      simp [heq]
  induction hsteps with
  | refl => exact h0
  | tail hab hbc ih => exact step_preserves_nextEvents config _ _ hbc ih

/-- Witness for C2 on the toggle machine's initial snapshot. -/
theorem nextEvents_invariant_witness :
    (twInactive : MachineState CtxRec).nextEvents =
      keysOf ((alookup twInactive.value twConfig.states).bind
        MachineStateConfig.onMap) :=
  nextEvents_invariant twConfig [] none twInactive (by decide)
    ⟨twInactive, rfl, Relation.ReflTransGen.refl⟩

/-- One run of the effect callback emits exactly the entry labels of the new
state value. -/
lemma runEffect_snd (config : MachineConfig) (v : String) :
    (runEffect config v).2 = entryLabels config v := by
  cases h : effectOf config v with
  | none => simp [runEffect, entryLabels, h]
  | some eff => cases eff <;> simp [runEffect, entryLabels, h]

/-- C8: effect invocations are coupled to state-value changes only.  At
initialization the initial state's entry effect runs once; a snapshot
replacement with a changed value invokes the previous state's pending exit
callback (if any) strictly before the new state's entry effect; a replacement
with an unchanged value (context update, denied or unmatched event) runs
neither, and keeps the pending exit callback. -/
theorem effect_scheduling {C : Type} (config : MachineConfig) (rt : Runtime C)
    (msg : Msg C) (rt' : Runtime C) (ls : List EffLabel)
    (hstep : stepRuntime config rt msg = some (rt', ls)) :
    ((rt'.machine.value = rt.machine.value →
        ls = [] ∧ rt'.cleanupOwner = rt.cleanupOwner) ∧
     (rt'.machine.value ≠ rt.machine.value →
        ls = exitLabels rt.cleanupOwner ++ entryLabels config rt'.machine.value)) ∧
    (∀ (emptyContext : C) (context : Option C) (rt0 : Runtime C)
        (ls0 : List EffLabel),
      initRuntime config emptyContext context = some (rt0, ls0) →
      ls0 = entryLabels config rt0.machine.value) := by
  constructor
  · unfold stepRuntime at hstep
    cases hred : reducer config rt.machine msg with
    | none => rw [hred] at hstep; cases hstep
    | some m' =>
      rw [hred, Option.map_some'] at hstep
      rw [Option.some.injEq] at hstep
      by_cases hv : m'.value = rt.machine.value
      · rw [if_pos hv] at hstep
        injection hstep with h1 h2
        subst h1
        subst h2
        constructor
        · intro _
          exact ⟨rfl, rfl⟩
        · intro hne
          exact absurd hv hne
      · rw [if_neg hv] at hstep
        injection hstep with h1 h2
        subst h1
        subst h2
        constructor
        · intro hsame
          exact absurd hsame hv
        · intro _
          simp [runEffect_snd]
  · intro emptyContext context rt0 ls0 hinit
    unfold initRuntime at hinit
    cases h0 : initialState config emptyContext context with
    | none => rw [h0] at hinit; cases hinit
    | some m0 =>
      rw [h0, Option.map_some'] at hinit
      rw [Option.some.injEq] at hinit
      injection hinit with h1 h2
      subst h1
      subst h2
      simp [runEffect_snd]

/-- A two-state machine with effects: state `a`'s entry effect returns an
exit callback, state `b`'s returns void. -/
def efConfig : MachineConfig :=
  ⟨"a",
   [("a", ⟨some [("GO", .str "b")], some .retCleanup⟩),
    ("b", ⟨some [("BACK", .str "a")], some .retVoid⟩)]⟩

/-- Witness for C8 on `efConfig`: the `a → b` step emits `a`'s exit strictly
before `b`'s entry, and initialization emits exactly `a`'s entry. -/
theorem effect_scheduling_witness :
    ([EffLabel.exit "a", EffLabel.entry "b"] =
      exitLabels (some "a") ++ entryLabels efConfig "b") ∧
    ([EffLabel.entry "a"] = entryLabels efConfig "a") := by
  have h := effect_scheduling (C := CtxRec) efConfig
    ⟨⟨"a", [], ["GO"]⟩, some "a"⟩ (.event "GO")
    ⟨⟨"b", [], ["BACK"]⟩, none⟩ [.exit "a", .entry "b"] rfl
  exact ⟨h.1.2 (by decide),
         h.2 [] none ⟨⟨"a", [], ["GO"]⟩, some "a"⟩ [.entry "a"] rfl⟩

end UseStateMachine
